import Mathlib

/-!
Shallow embedding of the DailyUpdate mailing-list service
(news_service.py, scheduler_service.py, routes.py, models.py).

Python strings are modelled as Lean `String` (slicing by code points
matches `List Char` operations), timestamps as `Nat`, and the database
session as an explicit state record with staged changes applied at
commit time.
-/

namespace DailyUpdate

/-! ## News service (news_service.py) -/

/-- A raw article as decoded from the provider JSON: each field is
`article.get(key)`, absent keys give `none`. -/
structure RawArticle where
  title : Option String
  url : Option String
  description : Option String
deriving DecidableEq

/-- A sanitized article as built by `fetch_ai_news`. -/
structure Article where
  title : String
  url : String
  description : String
deriving DecidableEq

/-- Python truthiness of `article.get(key)`: `None` and the empty
string are falsy. -/
def truthy : Option String → Bool
  | none => false
  | some s => !(s == "")

/-- Model of `NewsService._truncate_description`: descriptions longer than 250
characters become the first 247 characters followed by an ellipsis. -/
def truncate_description (description : String) : String :=
  if description.length > 250 then String.mk (description.data.take 247) ++ "..."
  else description

/-- The filter in the `fetch_ai_news` loop: keep items with truthy
title, url and description whose title is not the removal tombstone. -/
def keepArticle (a : RawArticle) : Bool :=
  truthy a.title && truthy a.url && truthy a.description &&
    !(a.title == some "[Removed]")

/-- Build the sanitized dict appended by the `fetch_ai_news` loop. -/
def buildArticle (a : RawArticle) : Article :=
  { title := a.title.getD ""
    url := a.url.getD ""
    description := truncate_description (a.description.getD "") }

/-- Model of `NewsService.get_fallback_news`: the fixed hard-coded fallback list. -/
def get_fallback_news : List Article :=
  [ { title := "Latest Developments in Artificial Intelligence Research"
      url := "https://www.nature.com/subjects/machine-learning"
      description := "Stay updated with cutting-edge research in AI and machine learning from leading scientific journals and institutions worldwide." },
    { title := "AI Industry Trends and Market Analysis"
      url := "https://www.mckinsey.com/capabilities/quantumblack/our-insights"
      description := "Comprehensive analysis of AI adoption trends, market opportunities, and business transformation strategies across industries." },
    { title := "OpenAI and AI Safety Research Updates"
      url := "https://openai.com/research"
      description := "Latest research publications and safety developments from OpenAI and other leading AI research organizations." },
    { title := "Machine Learning Tools and Frameworks"
      url := "https://github.com/topics/machine-learning"
      description := "Discover new tools, libraries, and frameworks that are shaping the future of machine learning development." },
    { title := "AI Ethics and Responsible AI Development"
      url := "https://www.partnershiponai.org"
      description := "Important discussions on AI ethics, bias mitigation, and responsible development practices in artificial intelligence." } ]

/-- Model of `NewsService.fetch_ai_news`. The external interaction is abstracted
as: `apiKey` is `os.environ.get` of the credential, and `response` is
the outcome of the HTTP call plus JSON decode — `Except.error` covers a
transport error, timeout, `raise_for_status` on a non-success status,
or any other fault raised inside the `try` block, all of which the code
catches and answers with the fallback list. -/
def fetch_ai_news (apiKey : Option String) (response : Except String (List RawArticle)) :
    List Article :=
  if !(truthy apiKey) then get_fallback_news
  else
    match response with
    | Except.error _ => get_fallback_news
    | Except.ok articles => (((articles.filter keepArticle).map buildArticle).take 5)

/-! ## Data model (models.py) -/

/-- The `users` table row. Timestamps are abstract `Nat` instants. -/
structure User where
  id : Nat
  email : String
  date_subscribed : Nat
  is_active : Bool
  last_email_sent : Option Nat
deriving DecidableEq

/-- The `email_logs` table row as staged by the batch job
(`email_sent_at` is the insert-time default and plays no role in the
claims, so it is not carried). -/
structure EmailLog where
  user_id : Nat
  articles_count : Nat
  status : String
  error_message : Option String
deriving DecidableEq

/-- The persistent store: both tables. -/
structure DB where
  users : List User
  logs : List EmailLog
deriving DecidableEq

/-! ## Batch job (scheduler_service.send_daily_news) -/

/-- Outcome of one `send_news_email(user.email, news_articles)` call:
it returns `True`, returns `False`, or raises a fault whose
`str(e)` is `msg`. -/
inductive SendOutcome where
  | ok
  | returnedFalse
  | raises (msg : String)
deriving DecidableEq

/-- Accumulated effects of the per-subscriber loop: counters, staged
log rows, ids of users whose `last_email_sent` was set, and the
arguments of every transmission call made (email, articles). -/
structure LoopResult where
  succ : Nat
  failed : Nat
  logs : List EmailLog
  updated : List Nat
  sends : List (String × List Article)
deriving DecidableEq

/-- The `for user in users:` loop of `send_daily_news`. `send i` is the
outcome of the transmission call for the subscriber at position `i` of
the snapshot. On `True`: stage a `sent` row and set the user's
`last_email_sent`. On `False`: stage a `failed` row with the fixed
message. On a raised fault: stage a `failed` row carrying `str(e)`.
Every branch stages exactly one row and the loop always continues. -/
def runLoop (articles : List Article) (send : Nat → SendOutcome) :
    List User → Nat → LoopResult
  | [], _ => ⟨0, 0, [], [], []⟩
  | u :: us, i =>
    let rest := runLoop articles send us (i + 1)
    match send i with
    | SendOutcome.ok =>
        ⟨rest.succ + 1, rest.failed,
         ⟨u.id, articles.length, "sent", none⟩ :: rest.logs,
         u.id :: rest.updated, (u.email, articles) :: rest.sends⟩
    | SendOutcome.returnedFalse =>
        ⟨rest.succ, rest.failed + 1,
         ⟨u.id, articles.length, "failed", some "Failed to send email"⟩ :: rest.logs,
         rest.updated, (u.email, articles) :: rest.sends⟩
    | SendOutcome.raises msg =>
        ⟨rest.succ, rest.failed + 1,
         ⟨u.id, articles.length, "failed", some msg⟩ :: rest.logs,
         rest.updated, (u.email, articles) :: rest.sends⟩

/-- What one run of `send_daily_news` did: the store after the final
commit/rollback, the printed summary counters, the staged log rows,
how many times `NewsService().fetch_ai_news()` was invoked, and the
transmission calls that were made. -/
structure RunResult where
  db : DB
  successful_sends : Nat
  failed_sends : Nat
  articles_count : Nat
  staged_logs : List EmailLog
  fetch_calls : Nat
  sends : List (String × List Article)
deriving DecidableEq

/-- Apply the staged mutation `user.last_email_sent = now` to every
user whose id was recorded by a successful send. -/
def applyUpdates (users : List User) (updated : List Nat) (now : Nat) : List User :=
  users.map (fun u => if updated.contains u.id then { u with last_email_sent := some now } else u)

/-- Model of `scheduler_service.send_daily_news`. `fetched` is the value
`NewsService().fetch_ai_news()` would return, `send` the per-position
transmission outcomes, `now` the run's `datetime.utcnow()`, and
`commitOk` whether the final `db.session.commit()` succeeds (on
failure the session is rolled back, abandoning every staged change).
The summary counters are computed and printed after the commit
attempt either way. -/
def send_daily_news (db : DB) (now : Nat) (fetched : List Article)
    (send : Nat → SendOutcome) (commitOk : Bool) : RunResult :=
  let users := db.users.filter (fun u => u.is_active)
  if users.isEmpty then
    ⟨db, 0, 0, 0, [], 0, []⟩
  else if fetched.isEmpty then
    ⟨db, 0, 0, 0, [], 1, []⟩
  else
    let r := runLoop fetched send users 0
    let committed : DB :=
      if commitOk then ⟨applyUpdates db.users r.updated now, db.logs ++ r.logs⟩
      else db
    ⟨committed, r.succ, r.failed, fetched.length, r.logs, 1, r.sends⟩

/-! ## Scheduler registration (scheduler_service.start_scheduler) -/

/-- One APScheduler job registration with the configuration fields
`start_scheduler` passes to `add_job`. -/
structure Job where
  id : String
  hour : Nat
  minute : Nat
  timezone : String
  max_instances : Nat
  coalesce : Bool
  replace_existing : Bool
deriving DecidableEq

/-- The single job `start_scheduler` registers: `CronTrigger(hour=22,
minute=22, timezone=pytz.timezone(Asia/Kolkata))` with id
`daily_news_job`, `replace_existing=True`, `max_instances=1`,
`coalesce=True`. -/
def daily_news_job : Job :=
  ⟨"daily_news_job", 22, 22, "Asia/Kolkata", 1, true, true⟩

/-- APScheduler `add_job` on a scheduler holding `jobs`: with
`replace_existing=True` a prior registration with the same id is
replaced, otherwise the job is appended. -/
def add_job (jobs : List Job) (j : Job) : List Job :=
  if j.replace_existing then jobs.filter (fun k => !(k.id == j.id)) ++ [j]
  else jobs ++ [j]

/-- Model of `scheduler_service.start_scheduler`: it registers exactly one job on
the scheduler it creates. -/
def start_scheduler (jobs : List Job) : List Job :=
  add_job jobs daily_news_job

/-! ## Subscription routes (routes.py) -/

/-- Characters the local part of `validate_email` accepts. -/
def isLocalChar (c : Char) : Bool :=
  c.isAlphanum || c == '.' || c == '_' || c == '%' || c == '+' || c == '-'

/-- Characters the domain part of `validate_email` accepts. -/
def isDomainChar (c : Char) : Bool :=
  c.isAlphanum || c == '.' || c == '-'

/-- Split a character list at every occurrence of `c` (like Python
`str.split(c)`): the separators are dropped and empty groups kept. -/
def splitOnChar (c : Char) : List Char → List (List Char)
  | [] => [[]]
  | x :: xs =>
    match splitOnChar c xs with
    | [] => [[]]
    | g :: gs => if x == c then [] :: g :: gs else (x :: g) :: gs

/-- Model of `routes.validate_email`: the anchored pattern demands exactly one
`@`, a non-empty local part over its character class, and a domain of
the form `body.tld` whose tld is two or more letters; since the tld
class excludes dots, the dot before it is the last dot of the domain,
and `body` (everything before that last dot) must be non-empty. -/
def validate_email (email : String) : Bool :=
  match splitOnChar '@' email.data with
  | [l, d] =>
    !(l.isEmpty) && l.all isLocalChar &&
      (let parts := splitOnChar '.' d
       decide (2 ≤ parts.length) && d.all isDomainChar &&
         (match parts.getLast? with
          | some t =>
            decide (2 ≤ t.length) && t.all (fun ch => ch.isAlpha) &&
              decide (t.length + 2 ≤ d.length)
          | none => false))
  | _ => false

/-- Whitespace stripped by Python `str.strip()` (ASCII range). -/
def isSpaceChar (c : Char) : Bool :=
  c == ' ' || c == '\t' || c == '\n' || c == '\r' || c == '\x0b' || c == '\x0c'

/-- Model of `email.strip()`: drop whitespace from both ends. -/
def stripString (s : String) : String :=
  String.mk (((s.data.dropWhile isSpaceChar).reverse.dropWhile isSpaceChar).reverse)

/-- Model of `email.lower()` (ASCII case folding, which is what email addresses
in the stored data use). -/
def lowerString (s : String) : String :=
  String.mk (s.data.map Char.toLower)

/-- The normalization `request.form.get(email).strip().lower()`
applied before validation and lookup. -/
def normalizeEmail (s : String) : String :=
  lowerString (stripString s)

/-- Mutate the first user record matched by
`User.query.filter_by(email=email).first()`, leaving the rest alone. -/
def updateFirst (email : String) (f : User → User) : List User → List User
  | [] => []
  | u :: us => if u.email == email then f u :: us else u :: updateFirst email f us

/-- Result category of a subscribe request, mirroring the flash/JSON
branches of `routes.subscribe` and `routes.api_subscribe`. -/
inductive SubscribeResult where
  | invalid
  | alreadySubscribed
  | reactivated
  | created
deriving DecidableEq

/-- The POST branch of `routes.subscribe` (and the shared logic of
`api_subscribe`): normalize with `.strip().lower()`, validate, then
either report an active duplicate, reactivate an inactive record
(setting `is_active=True` and `date_subscribed=utcnow`), or insert a
fresh active record. `newId` is the autoincrement id a fresh insert
would receive. -/
def subscribe (db : DB) (rawEmail : String) (now : Nat) (newId : Nat) :
    DB × SubscribeResult :=
  let email := normalizeEmail rawEmail
  if email == "" then (db, SubscribeResult.invalid)
  else if !(validate_email email) then (db, SubscribeResult.invalid)
  else
    match db.users.find? (fun u => u.email == email) with
    | some u =>
      if u.is_active then (db, SubscribeResult.alreadySubscribed)
      else
        ({ db with
            users := updateFirst email
              (fun v => { v with is_active := true, date_subscribed := now }) db.users },
         SubscribeResult.reactivated)
    | none =>
      ({ db with users := db.users ++ [⟨newId, email, now, true, none⟩] },
       SubscribeResult.created)

/-! ## Lemmas about the news service -/

lemma truncate_description_length_of_gt {d : String} (h : 250 < d.length) :
    (truncate_description d).length = 250 := by
  unfold truncate_description
  rw [if_pos (by omega : d.length > 250), String.length_append]
  show (d.data.take 247).length + 3 = 250
  rw [List.length_take]
  have hd : d.data.length = d.length := rfl
  omega

lemma truncate_description_eq_of_le {d : String} (h : d.length ≤ 250) :
    truncate_description d = d := by
  unfold truncate_description
  rw [if_neg (by omega)]

lemma truncate_description_length_le (d : String) :
    (truncate_description d).length ≤ 250 := by
  by_cases h : 250 < d.length
  · rw [truncate_description_length_of_gt h]
  · rw [truncate_description_eq_of_le (by omega)]
    omega

lemma truncate_description_ne_empty {d : String} (h : d ≠ "") :
    truncate_description d ≠ "" := by
  by_cases hl : 250 < d.length
  · intro he
    have hlen := truncate_description_length_of_gt hl
    rw [he] at hlen
    exact absurd hlen (by decide)
  · rw [truncate_description_eq_of_le (by omega)]
    exact h

lemma truncate_description_ellipsis {d : String} (h : 250 < d.length) :
    ∃ p, truncate_description d = p ++ "..." := by
  refine ⟨String.mk (d.data.take 247), ?_⟩
  unfold truncate_description
  rw [if_pos (by omega : d.length > 250)]

/-- The property C3 demands of every delivered article. -/
def sanitized (a : Article) : Prop :=
  a.description.length ≤ 250 ∧ a.title ≠ "" ∧ a.url ≠ "" ∧ a.description ≠ "" ∧
    a.title ≠ "[Removed]"

instance (a : Article) : Decidable (sanitized a) := by
  unfold sanitized
  infer_instance

set_option maxRecDepth 8192 in
lemma fallback_items_sanitized : ∀ a ∈ get_fallback_news, sanitized a := by
  decide

lemma keep_build_sanitized {r : RawArticle} (h : keepArticle r = true) :
    sanitized (buildArticle r) := by
  rcases r with ⟨t, u, dsc⟩
  cases t with
  | none => simp [keepArticle, truthy] at h
  | some ts =>
    cases u with
    | none => simp [keepArticle, truthy] at h
    | some us =>
      cases dsc with
      | none => simp [keepArticle, truthy] at h
      | some ds =>
        simp only [keepArticle, truthy, Bool.and_eq_true, Bool.not_eq_true',
          beq_eq_false_iff_ne, ne_eq, Option.some.injEq] at h
        obtain ⟨⟨⟨h1, h2⟩, h3⟩, h4⟩ := h
        refine ⟨truncate_description_length_le ds, ?_, ?_, ?_, ?_⟩ <;>
          simp only [buildArticle, Option.getD_some]
        · exact h1
        · exact h2
        · exact truncate_description_ne_empty h3
        · exact h4

lemma mem_fetch_ai_news_sanitized {apiKey : Option String}
    {response : Except String (List RawArticle)} {a : Article}
    (ha : a ∈ fetch_ai_news apiKey response) : sanitized a := by
  unfold fetch_ai_news at ha
  cases hk : truthy apiKey with
  | false =>
    rw [hk] at ha
    simp only [Bool.not_false, if_true] at ha
    exact fallback_items_sanitized a ha
  | true =>
    rw [hk] at ha
    simp only [Bool.not_true, Bool.false_eq_true, if_false] at ha
    cases response with
    | error e => exact fallback_items_sanitized a ha
    | ok arts =>
      have ha2 := List.take_subset 5 _ ha
      obtain ⟨rr, hrr, rfl⟩ := List.mem_map.mp ha2
      exact keep_build_sanitized (List.mem_filter.mp hrr).2

lemma fetch_ai_news_length_le (apiKey : Option String)
    (response : Except String (List RawArticle)) :
    (fetch_ai_news apiKey response).length ≤ 5 := by
  unfold fetch_ai_news
  cases hk : truthy apiKey with
  | false => simp only [Bool.not_false, if_true]; decide
  | true =>
    simp only [Bool.not_true, Bool.false_eq_true, if_false]
    cases response with
    | error e =>
      show get_fallback_news.length ≤ 5
      decide
    | ok arts => exact List.length_take_le 5 _

/-! ## Claim theorems for the news service -/

/-- C3: for every provider credential and response (and for the
fallback), `fetch_ai_news` returns at most 5 articles, each with a
description of at most 250 characters, none with an empty title, url
or description, and none titled `[Removed]`; `_truncate_description`
maps a description longer than 250 characters to one of exactly 250
characters ending in an ellipsis and returns shorter ones unchanged. -/
theorem fetch_ai_news_bounded_and_sanitized (apiKey : Option String)
    (response : Except String (List RawArticle)) (d : String) :
    (fetch_ai_news apiKey response).length ≤ 5 ∧
    (∀ a ∈ fetch_ai_news apiKey response,
      a.description.length ≤ 250 ∧ a.title ≠ "" ∧ a.url ≠ "" ∧ a.description ≠ "" ∧
        a.title ≠ "[Removed]") ∧
    (250 < d.length →
      (truncate_description d).length = 250 ∧ ∃ p, truncate_description d = p ++ "...") ∧
    (d.length ≤ 250 → truncate_description d = d) :=
  ⟨fetch_ai_news_length_le apiKey response,
   fun _ ha => mem_fetch_ai_news_sanitized ha,
   fun h => ⟨truncate_description_length_of_gt h, truncate_description_ellipsis h⟩,
   fun h => truncate_description_eq_of_le h⟩

/-- A concrete string of 251 characters, for the C3 witness. -/
def longDescriptionW : String := String.mk (List.replicate 251 'a')

set_option maxRecDepth 8192 in
/-- Witness for C3 at concrete inputs: a missing credential with a
failed call, and a 251-character description. -/
theorem fetch_ai_news_bounded_and_sanitized_witness :
    (fetch_ai_news none (Except.error "timeout")).length ≤ 5 ∧
    (truncate_description longDescriptionW).length = 250 :=
  ⟨(fetch_ai_news_bounded_and_sanitized none (Except.error "timeout") longDescriptionW).1,
   ((fetch_ai_news_bounded_and_sanitized none (Except.error "timeout") longDescriptionW).2.2.1
      (by decide)).1⟩

/-- C4: whenever the external call fails — missing credential (falsy
`NEWS_API_KEY`) or any raised fault (transport error, timeout,
`raise_for_status`, decode error) — `fetch_ai_news` returns exactly the
hard-coded fallback list, which has at least 5 items; being a total
function of the failure, it propagates nothing to the caller. -/
theorem fetch_ai_news_fallback_on_failure (apiKey : Option String)
    (response : Except String (List RawArticle)) (e : String) :
    (truthy apiKey = false → fetch_ai_news apiKey response = get_fallback_news) ∧
    fetch_ai_news apiKey (Except.error e) = get_fallback_news ∧
    5 ≤ get_fallback_news.length := by
  refine ⟨?_, ?_, by decide⟩
  · intro hk
    unfold fetch_ai_news
    rw [hk]
    simp
  · unfold fetch_ai_news
    cases hk : truthy apiKey <;> simp

/-- Witness for C4: with no credential configured the call answers the
fallback list. -/
theorem fetch_ai_news_fallback_on_failure_witness :
    fetch_ai_news none (Except.ok []) = get_fallback_news :=
  (fetch_ai_news_fallback_on_failure none (Except.ok []) "x").1 (by decide)

/-! ## Lemmas about the batch loop -/

lemma runLoop_logs_map_user_id (a : List Article) (s : Nat → SendOutcome) :
    ∀ (us : List User) (i : Nat),
      (runLoop a s us i).logs.map (fun e => e.user_id) = us.map (fun u => u.id) := by
  intro us
  induction us with
  | nil => intro i; rfl
  | cons u us ih =>
    intro i
    cases hs : s i <;> simp [runLoop, hs, ih (i + 1)]

lemma runLoop_logs_length (a : List Article) (s : Nat → SendOutcome)
    (us : List User) (i : Nat) : (runLoop a s us i).logs.length = us.length := by
  have h := congrArg List.length (runLoop_logs_map_user_id a s us i)
  simpa using h

lemma runLoop_sends_eq (a : List Article) (s : Nat → SendOutcome) :
    ∀ (us : List User) (i : Nat),
      (runLoop a s us i).sends = us.map (fun u => (u.email, a)) := by
  intro us
  induction us with
  | nil => intro i; rfl
  | cons u us ih =>
    intro i
    cases hs : s i <;> simp [runLoop, hs, ih (i + 1)]

/-- The log row the loop body stages for the subscriber at position
`i`, as a function of the outcome of that subscriber's send. -/
def logFor (articles : List Article) (s : Nat → SendOutcome) (i : Nat) (u : User) :
    EmailLog :=
  match s i with
  | SendOutcome.ok => ⟨u.id, articles.length, "sent", none⟩
  | SendOutcome.returnedFalse =>
      ⟨u.id, articles.length, "failed", some "Failed to send email"⟩
  | SendOutcome.raises msg => ⟨u.id, articles.length, "failed", some msg⟩

lemma runLoop_logs_get? (a : List Article) (s : Nat → SendOutcome) :
    ∀ (us : List User) (i j : Nat) (hj : j < us.length),
      (runLoop a s us i).logs.get? j = some (logFor a s (i + j) (us.get ⟨j, hj⟩)) := by
  intro us
  induction us with
  | nil =>
    intro i j hj
    exact absurd hj (by simp)
  | cons u us ih =>
    intro i j hj
    cases j with
    | zero =>
      cases hs : s i <;> simp [runLoop, hs, logFor]
    | succ j =>
      have hj2 : j < us.length := Nat.lt_of_succ_lt_succ hj
      have hrec := ih (i + 1) j hj2
      have harith : i + 1 + j = i + (j + 1) := by omega
      cases hs : s i <;>
        simpa [runLoop, hs, harith] using hrec

lemma runLoop_updated_sound (a : List Article) (s : Nat → SendOutcome) :
    ∀ (us : List User) (i0 uid : Nat),
      uid ∈ (runLoop a s us i0).updated →
      ∃ j, ∃ hj : j < us.length,
        (us.get ⟨j, hj⟩).id = uid ∧ s (i0 + j) = SendOutcome.ok := by
  intro us
  induction us with
  | nil =>
    intro i0 uid h
    exact absurd h (by simp [runLoop])
  | cons u us ih =>
    intro i0 uid h
    have step : uid ∈ (runLoop a s us (i0 + 1)).updated →
        ∃ j, ∃ hj : j < (u :: us).length,
          ((u :: us).get ⟨j, hj⟩).id = uid ∧ s (i0 + j) = SendOutcome.ok := by
      intro hmem
      obtain ⟨j, hj, hid, hok⟩ := ih (i0 + 1) uid hmem
      refine ⟨j + 1, Nat.succ_lt_succ hj, ?_, ?_⟩
      · simpa using hid
      · have harith : i0 + (j + 1) = i0 + 1 + j := by omega
        rw [harith]
        exact hok
    cases hs : s i0 with
    | ok =>
      simp only [runLoop, hs] at h
      rcases List.mem_cons.mp h with heq | hmem
      · exact ⟨0, by simp, by simpa using heq.symm, by simpa using hs⟩
      · exact step hmem
    | returnedFalse =>
      simp only [runLoop, hs] at h
      exact step h
    | raises msg =>
      simp only [runLoop, hs] at h
      exact step h

lemma filter_active_isEmpty_false {db : DB}
    (hu : db.users.filter (fun u => u.is_active) ≠ []) :
    (db.users.filter (fun u => u.is_active)).isEmpty = false := by
  cases hE : (db.users.filter (fun u => u.is_active)).isEmpty
  · rfl
  · exact absurd (List.isEmpty_iff.mp hE) hu

lemma list_isEmpty_false_of_ne {α : Type} {l : List α} (h : l ≠ []) :
    l.isEmpty = false := by
  cases hE : l.isEmpty
  · rfl
  · exact absurd (List.isEmpty_iff.mp hE) h

/-! ## Claim theorems for the batch job -/

/-- A one-article digest used by the concrete witnesses. -/
def artW : Article := ⟨"t", "u", "d"⟩

/-- Store with one active and one inactive subscriber, for witnesses. -/
def dbTwoW : DB :=
  ⟨[⟨1, "a@b.co", 0, true, none⟩, ⟨2, "c@d.co", 3, false, none⟩], []⟩

/-- Store with two active subscribers, for witnesses. -/
def dbPairW : DB :=
  ⟨[⟨1, "a@b.co", 0, true, none⟩, ⟨2, "c@d.co", 3, true, none⟩], []⟩

/-- Store whose only subscriber is inactive, for the C5 witness. -/
def dbInactiveW : DB := ⟨[⟨1, "a@b.co", 0, false, none⟩], []⟩

/-- C1: in a run that passes both no-op short-circuits, the batch
stages exactly one delivery-log row per subscriber in the snapshot —
the staged rows' subscriber ids are exactly the snapshot's ids in
order, whatever each send's outcome was. -/
theorem batch_stages_one_log_row_per_subscriber (db : DB) (now : Nat)
    (fetched : List Article) (send : Nat → SendOutcome) (commitOk : Bool)
    (hu : db.users.filter (fun u => u.is_active) ≠ []) (ha : fetched ≠ []) :
    (send_daily_news db now fetched send commitOk).staged_logs.length
        = (db.users.filter (fun u => u.is_active)).length ∧
    (send_daily_news db now fetched send commitOk).staged_logs.map (fun e => e.user_id)
        = (db.users.filter (fun u => u.is_active)).map (fun u => u.id) := by
  have h1 := filter_active_isEmpty_false hu
  have h2 := list_isEmpty_false_of_ne ha
  constructor <;>
    simp [send_daily_news, h1, h2, runLoop_logs_length, runLoop_logs_map_user_id]

/-- Witness for C1: one active subscriber out of two records, one
article, a successful send. -/
theorem batch_stages_one_log_row_per_subscriber_witness :
    (send_daily_news dbTwoW 9 [artW] (fun _ => SendOutcome.ok) true).staged_logs.length
      = (dbTwoW.users.filter (fun u => u.is_active)).length :=
  (batch_stages_one_log_row_per_subscriber dbTwoW 9 [artW] (fun _ => SendOutcome.ok) true
    (by decide) (by decide)).1

/-- C2 (amended): a subscriber whose send returns false is logged with
status `failed` and the fixed (non-empty) message, and one whose send
raises a fault is logged with status `failed` and the captured fault
text — which is empty exactly when the fault text is empty; either
way the loop continues, so every snapshot subscriber still gets a log
row and a transmission call. -/
theorem batch_logs_failed_send_and_continues (db : DB) (now : Nat)
    (fetched : List Article) (send : Nat → SendOutcome) (commitOk : Bool) (j : Nat)
    (hu : db.users.filter (fun u => u.is_active) ≠ []) (ha : fetched ≠ [])
    (hj : j < (db.users.filter (fun u => u.is_active)).length) :
    (send_daily_news db now fetched send commitOk).staged_logs.length
        = (db.users.filter (fun u => u.is_active)).length ∧
    (send j = SendOutcome.returnedFalse →
      (send_daily_news db now fetched send commitOk).staged_logs.get? j
        = some ⟨((db.users.filter (fun u => u.is_active)).get ⟨j, hj⟩).id,
                fetched.length, "failed", some "Failed to send email"⟩) ∧
    (∀ msg, send j = SendOutcome.raises msg →
      (send_daily_news db now fetched send commitOk).staged_logs.get? j
        = some ⟨((db.users.filter (fun u => u.is_active)).get ⟨j, hj⟩).id,
                fetched.length, "failed", some msg⟩) ∧
    (send_daily_news db now fetched send commitOk).sends.map (fun p => p.1)
        = (db.users.filter (fun u => u.is_active)).map (fun u => u.email) := by
  have h1 := filter_active_isEmpty_false hu
  have h2 := list_isEmpty_false_of_ne ha
  have hget := runLoop_logs_get? fetched send (db.users.filter (fun u => u.is_active)) 0 j hj
  rw [Nat.zero_add] at hget
  refine ⟨?_, ?_, ?_, ?_⟩
  · simp [send_daily_news, h1, h2, runLoop_logs_length]
  · intro hs
    simp only [send_daily_news, h1, h2, Bool.false_eq_true, if_false]
    rw [hget]
    simp [logFor, hs]
  · intro msg hs
    simp only [send_daily_news, h1, h2, Bool.false_eq_true, if_false]
    rw [hget]
    simp [logFor, hs]
  · simp [send_daily_news, h1, h2, runLoop_sends_eq]

/-- Witness for C2: two active subscribers; the first send raises a
fault with text `boom`, yielding a failed row with that text. -/
theorem batch_logs_failed_send_and_continues_witness :
    (send_daily_news dbPairW 9 [artW]
        (fun i => if i == 0 then SendOutcome.raises "boom" else SendOutcome.ok)
        true).staged_logs.get? 0
      = some ⟨1, 1, "failed", some "boom"⟩ :=
  (batch_logs_failed_send_and_continues dbPairW 9 [artW]
      (fun i => if i == 0 then SendOutcome.raises "boom" else SendOutcome.ok)
      true 0 (by decide) (by decide) (by decide)).2.2.1 "boom" (by decide)

/-- C2 as frozen is false on the code: a raised fault whose captured
text is the empty string is logged with an empty error detail, not a
non-empty one. Concrete run: one active subscriber, one article, the
send raises a fault printing as the empty string. -/
theorem batch_failed_send_empty_detail_counterexample :
    (send_daily_news ⟨[⟨1, "a@b.co", 0, true, none⟩], []⟩ 9 [artW]
        (fun _ => SendOutcome.raises "") true).staged_logs.map
        (fun e => (e.status, e.error_message))
      = [("failed", some "")] := by
  decide

/-- C5: with an empty active-subscriber snapshot the run is a no-op:
zero counts in the summary, zero staged rows, the store untouched, and
the article source never invoked. -/
theorem batch_noop_when_no_subscribers (db : DB) (now : Nat) (fetched : List Article)
    (send : Nat → SendOutcome) (commitOk : Bool)
    (h : db.users.filter (fun u => u.is_active) = []) :
    send_daily_news db now fetched send commitOk = ⟨db, 0, 0, 0, [], 0, []⟩ := by
  simp [send_daily_news, h]

/-- Witness for C5: a store whose only subscriber is inactive. -/
theorem batch_noop_when_no_subscribers_witness :
    send_daily_news dbInactiveW 9 [artW] (fun _ => SendOutcome.ok) true
      = ⟨dbInactiveW, 0, 0, 0, [], 0, []⟩ :=
  batch_noop_when_no_subscribers dbInactiveW 9 [artW] (fun _ => SendOutcome.ok) true
    (by decide)

/-- C6: with a non-empty snapshot the article source is invoked exactly
once; when it yields articles every snapshot subscriber is sent that
same single list, and when it yields none the run aborts as a no-op
with no sends and no staged rows. -/
theorem batch_fetches_once_and_shares_digest (db : DB) (now : Nat)
    (fetched : List Article) (send : Nat → SendOutcome) (commitOk : Bool)
    (hu : db.users.filter (fun u => u.is_active) ≠ []) :
    (send_daily_news db now fetched send commitOk).fetch_calls = 1 ∧
    (fetched ≠ [] →
      (send_daily_news db now fetched send commitOk).sends
        = (db.users.filter (fun u => u.is_active)).map (fun u => (u.email, fetched))) ∧
    (fetched = [] →
      send_daily_news db now fetched send commitOk = ⟨db, 0, 0, 0, [], 1, []⟩) := by
  have h1 := filter_active_isEmpty_false hu
  refine ⟨?_, ?_, ?_⟩
  · cases hF : fetched with
    | nil => simp [send_daily_news, h1]
    | cons a as => simp [send_daily_news, h1]
  · intro ha
    have h2 := list_isEmpty_false_of_ne ha
    simp [send_daily_news, h1, h2, runLoop_sends_eq]
  · intro ha
    subst ha
    simp [send_daily_news, h1]

/-- Witness for C6: one active subscriber, one article. -/
theorem batch_fetches_once_and_shares_digest_witness :
    (send_daily_news dbTwoW 9 [artW] (fun _ => SendOutcome.ok) true).fetch_calls = 1 :=
  (batch_fetches_once_and_shares_digest dbTwoW 9 [artW] (fun _ => SendOutcome.ok) true
    (by decide)).1

/-- C7: the run's summary counters and staged rows do not depend on
whether the final commit succeeds; a failed commit leaves the store
exactly as it was (full rollback), and in every case the store is
either untouched or carries all staged subscriber updates and all
staged log rows together (one transaction, nothing partial). -/
theorem batch_commit_atomic_and_summary_preserved (db : DB) (now : Nat)
    (fetched : List Article) (send : Nat → SendOutcome) :
    (send_daily_news db now fetched send false).db = db ∧
    (∀ commitOk : Bool,
      (send_daily_news db now fetched send commitOk).successful_sends
          = (send_daily_news db now fetched send true).successful_sends ∧
      (send_daily_news db now fetched send commitOk).failed_sends
          = (send_daily_news db now fetched send true).failed_sends ∧
      (send_daily_news db now fetched send commitOk).articles_count
          = (send_daily_news db now fetched send true).articles_count ∧
      (send_daily_news db now fetched send commitOk).staged_logs
          = (send_daily_news db now fetched send true).staged_logs) ∧
    (∀ commitOk : Bool,
      (send_daily_news db now fetched send commitOk).db = db ∨
      ((send_daily_news db now fetched send commitOk).db.users
          = applyUpdates db.users
              (runLoop fetched send (db.users.filter (fun u => u.is_active)) 0).updated
              now ∧
       (send_daily_news db now fetched send commitOk).db.logs
          = db.logs ++ (send_daily_news db now fetched send commitOk).staged_logs)) := by
  cases hE : (db.users.filter (fun u => u.is_active)).isEmpty
  · cases hF : fetched.isEmpty
    · refine ⟨by simp [send_daily_news, hE, hF], fun commitOk => ?_, fun commitOk => ?_⟩
      · cases commitOk <;> simp [send_daily_news, hE, hF]
      · cases commitOk
        · exact Or.inl (by simp [send_daily_news, hE, hF])
        · exact Or.inr (by simp [send_daily_news, hE, hF])
    · refine ⟨by simp [send_daily_news, hE, hF], fun commitOk => ?_, fun commitOk => ?_⟩
      · cases commitOk <;> simp [send_daily_news, hE, hF]
      · exact Or.inl (by cases commitOk <;> simp [send_daily_news, hE, hF])
  · refine ⟨by simp [send_daily_news, hE], fun commitOk => ?_, fun commitOk => ?_⟩
    · cases commitOk <;> simp [send_daily_news, hE]
    · exact Or.inl (by cases commitOk <;> simp [send_daily_news, hE])

/-! ## Claim theorem for the scheduler registration -/

/-- C8: `start_scheduler` registers exactly one recurring job, with the
stable id `daily_news_job`, firing at hour 22, minute 22 in the
Asia/Kolkata zone, with `max_instances=1`, `coalesce=True` and
`replace_existing=True`; registering over a scheduler that already
holds a job with the same id replaces it, so re-registration is
idempotent and never duplicates the job. -/
theorem scheduler_registers_single_daily_job :
    start_scheduler [] = [daily_news_job] ∧
    daily_news_job.id = "daily_news_job" ∧
    daily_news_job.hour = 22 ∧
    daily_news_job.minute = 22 ∧
    daily_news_job.timezone = "Asia/Kolkata" ∧
    daily_news_job.max_instances = 1 ∧
    daily_news_job.coalesce = true ∧
    daily_news_job.replace_existing = true ∧
    ∀ jobs : List Job,
      (start_scheduler jobs).filter (fun j => j.id == "daily_news_job")
        = [daily_news_job] := by
  refine ⟨rfl, rfl, rfl, rfl, rfl, rfl, rfl, rfl, ?_⟩
  intro jobs
  have hstep : start_scheduler jobs
      = jobs.filter (fun k => !(k.id == "daily_news_job")) ++ [daily_news_job] := rfl
  rw [hstep, List.filter_append]
  have h1 : (jobs.filter (fun k => !(k.id == "daily_news_job"))).filter
      (fun j => j.id == "daily_news_job") = [] := by
    simp [List.filter_filter]
  rw [h1]
  decide

/-! ## Lemmas about the subscribe route -/

lemma updateFirst_map_email (email : String) (f : User → User)
    (hf : ∀ v, (f v).email = v.email) :
    ∀ us : List User,
      (updateFirst email f us).map (fun u => u.email) = us.map (fun u => u.email) := by
  intro us
  induction us with
  | nil => rfl
  | cons u us ih =>
    cases h : (u.email == email) <;> simp [updateFirst, h, ih, hf]

lemma find?_updateFirst (email : String) (f : User → User)
    (hf : ∀ v, (f v).email = v.email) :
    ∀ (us : List User) (u0 : User),
      us.find? (fun u => u.email == email) = some u0 →
      (updateFirst email f us).find? (fun u => u.email == email) = some (f u0) := by
  intro us
  induction us with
  | nil =>
    intro u0 h
    simp at h
  | cons u us ih =>
    intro u0 h
    cases he : (u.email == email) with
    | true =>
      simp only [List.find?, he] at h
      have hu : u = u0 := by simpa using h
      subst hu
      have he2 : ((f u).email == email) = true := by rw [hf u]; exact he
      simp only [updateFirst, he, if_true, List.find?, he2]
    | false =>
      simp only [List.find?, he] at h
      have he2 : ((f u).email == email) = false := by rw [hf u]; exact he
      simp only [updateFirst, he, Bool.false_eq_true, if_false, List.find?]
      exact ih u0 h

/-! ## Claim theorem for the subscribe route -/

/-- C9: re-subscribing an existing inactive address (after
case-normalization) flips it active and resets its subscription
timestamp to the current instant, while the delivery-log table and the
list of stored addresses are untouched — in particular no duplicate
subscriber record is created and the record's id and delivery history
fields survive. -/
theorem resubscribe_reactivates_and_preserves_logs (db : DB) (rawEmail : String)
    (now newId : Nat) (u0 : User)
    (hv : validate_email (normalizeEmail rawEmail) = true)
    (hfind : db.users.find? (fun u => u.email == normalizeEmail rawEmail) = some u0)
    (hinact : u0.is_active = false) :
    (subscribe db rawEmail now newId).2 = SubscribeResult.reactivated ∧
    (subscribe db rawEmail now newId).1.logs = db.logs ∧
    (subscribe db rawEmail now newId).1.users.map (fun u => u.email)
        = db.users.map (fun u => u.email) ∧
    (subscribe db rawEmail now newId).1.users.find?
        (fun u => u.email == normalizeEmail rawEmail)
      = some { u0 with is_active := true, date_subscribed := now } := by
  have hne : (normalizeEmail rawEmail == "") = false := by
    cases heq : (normalizeEmail rawEmail == "")
    · rfl
    · exfalso
      have hes : normalizeEmail rawEmail = "" := by simpa using heq
      rw [hes] at hv
      exact absurd hv (by decide)
  have hred : subscribe db rawEmail now newId
      = ({ db with
            users := updateFirst (normalizeEmail rawEmail)
              (fun v => { v with is_active := true, date_subscribed := now }) db.users },
         SubscribeResult.reactivated) := by
    simp only [subscribe, hne, Bool.false_eq_true, if_false, hv, Bool.not_true, hfind,
      hinact, if_true]
  rw [hred]
  refine ⟨rfl, rfl, ?_, ?_⟩
  · exact updateFirst_map_email (normalizeEmail rawEmail)
      (fun v => { v with is_active := true, date_subscribed := now }) (fun v => rfl)
      db.users
  · exact find?_updateFirst (normalizeEmail rawEmail)
      (fun v => { v with is_active := true, date_subscribed := now }) (fun v => rfl)
      db.users u0 hfind

/-- Store with a single inactive subscriber carrying delivery history,
for the C9 witness. -/
def dbResubW : DB := ⟨[⟨1, "a@b.co", 0, false, some 7⟩], []⟩

/-- Witness for C9: re-subscribing ` A@b.CO ` reactivates the stored
`a@b.co` record with the new timestamp while keeping id and delivery
history. -/
theorem resubscribe_reactivates_and_preserves_logs_witness :
    (subscribe dbResubW " A@b.CO " 42 5).1.users.find?
        (fun u => u.email == normalizeEmail " A@b.CO ")
      = some ⟨1, "a@b.co", 42, true, some 7⟩ :=
  (resubscribe_reactivates_and_preserves_logs dbResubW " A@b.CO " 42 5
    ⟨1, "a@b.co", 0, false, some 7⟩ (by decide) (by decide) (by decide)).2.2.2

/-! ## Claim theorem for the last-sent frame condition -/

/-- C10: a subscriber whose send attempt does not succeed keeps their
`last_email_sent` value across the run — under the primary-key
invariant that user ids are unique, every record in the post-run store
carrying that subscriber's id still holds the snapshot's
`last_email_sent`; only a successful send updates it. -/
theorem failed_send_leaves_last_email_sent (db : DB) (now : Nat)
    (fetched : List Article) (send : Nat → SendOutcome) (commitOk : Bool) (i : Nat)
    (hnodup : (db.users.map (fun u => u.id)).Nodup)
    (hi : i < (db.users.filter (fun u => u.is_active)).length)
    (hno : send i ≠ SendOutcome.ok) :
    ∀ v ∈ (send_daily_news db now fetched send commitOk).db.users,
      v.id = ((db.users.filter (fun u => u.is_active)).get ⟨i, hi⟩).id →
      v.last_email_sent
        = ((db.users.filter (fun u => u.is_active)).get ⟨i, hi⟩).last_email_sent := by
  intro v hv hid
  have hu0mem : (db.users.filter (fun u => u.is_active)).get ⟨i, hi⟩ ∈ db.users :=
    List.mem_of_mem_filter (List.get_mem _ i hi)
  have base : ∀ w ∈ db.users,
      w.id = ((db.users.filter (fun u => u.is_active)).get ⟨i, hi⟩).id →
      w.last_email_sent
        = ((db.users.filter (fun u => u.is_active)).get ⟨i, hi⟩).last_email_sent := by
    intro w hw hwid
    rw [List.inj_on_of_nodup_map hnodup hw hu0mem hwid]
  have hupd : ((db.users.filter (fun u => u.is_active)).get ⟨i, hi⟩).id
      ∉ (runLoop fetched send (db.users.filter (fun u => u.is_active)) 0).updated := by
    intro hmem
    obtain ⟨j, hj, hjid, hok⟩ :=
      runLoop_updated_sound fetched send (db.users.filter (fun u => u.is_active)) 0 _ hmem
    have hnd : ((db.users.filter (fun u => u.is_active)).map (fun u => u.id)).Nodup := by
      have hs : List.Sublist
          ((db.users.filter (fun u => u.is_active)).map (fun u => u.id))
          (db.users.map (fun u => u.id)) := ((db.users).filter_sublist).map _
      exact hs.nodup hnodup
    have hj2 : j < ((db.users.filter (fun u => u.is_active)).map (fun u => u.id)).length := by
      rw [List.length_map]; exact hj
    have hi2 : i < ((db.users.filter (fun u => u.is_active)).map (fun u => u.id)).length := by
      rw [List.length_map]; exact hi
    have e : ((db.users.filter (fun u => u.is_active)).map (fun u => u.id)).get ⟨j, hj2⟩
        = ((db.users.filter (fun u => u.is_active)).map (fun u => u.id)).get ⟨i, hi2⟩ := by
      simp only [List.get_eq_getElem, List.getElem_map]
      exact hjid
    have hfin := (List.Nodup.get_inj_iff hnd).mp e
    have hji : j = i := by simpa using hfin
    rw [hji, Nat.zero_add] at hok
    exact hno hok
  have h1 : (db.users.filter (fun u => u.is_active)).isEmpty = false := by
    apply list_isEmpty_false_of_ne
    intro hnil
    rw [hnil] at hi
    simp at hi
  simp only [send_daily_news, h1, Bool.false_eq_true, if_false] at hv
  cases hF : fetched.isEmpty with
  | true =>
    rw [hF] at hv
    simp only [if_true] at hv
    exact base v hv hid
  | false =>
    rw [hF] at hv
    simp only [Bool.false_eq_true, if_false] at hv
    cases commitOk with
    | false =>
      simp only [Bool.false_eq_true, if_false] at hv
      exact base v hv hid
    | true =>
      simp only [if_true] at hv
      unfold applyUpdates at hv
      obtain ⟨w, hw, hvw⟩ := List.mem_map.mp hv
      by_cases hcont :
          ((runLoop fetched send (db.users.filter (fun u => u.is_active)) 0).updated.contains
            w.id) = true
      · exfalso
        have hwid : w.id = ((db.users.filter (fun u => u.is_active)).get ⟨i, hi⟩).id := by
          rw [← hid, ← hvw]
          rw [if_pos hcont]
        have hmem2 : w.id
            ∈ (runLoop fetched send (db.users.filter (fun u => u.is_active)) 0).updated := by
          simpa using hcont
        rw [hwid] at hmem2
        exact hupd hmem2
      · rw [if_neg hcont] at hvw
        rw [← hvw] at hid ⊢
        exact base w hw hid

/-- Witness for C10: a failed send keeps the active subscriber's
`last_email_sent` untouched in the committed store. -/
theorem failed_send_leaves_last_email_sent_witness :
    (⟨1, "a@b.co", 0, true, none⟩ : User).last_email_sent
      = ((dbTwoW.users.filter (fun u => u.is_active)).get ⟨0, by decide⟩).last_email_sent :=
  failed_send_leaves_last_email_sent dbTwoW 9 [artW] (fun _ => SendOutcome.returnedFalse)
    true 0 (by decide) (by decide) (by decide)
    ⟨1, "a@b.co", 0, true, none⟩ (by decide) (by decide)

end DailyUpdate
